import Mathlib

/- Verification development for the volume-hierarchy reconciliation and
material-resolution core of the gdml-editor repository
(src/gdml_editor/gui.py). Python dicts are embedded as association lists
(insertion order preserved), Python floats as rationals, material and
element objects as records carrying a numeric instance id, and objects
that may be given as a direct reference, a bare name string or None as
the inductive type PyRef. -/

/- ## Generic helpers: association lists and Python-style string ordering -/

/- Lookup in an association list; embeds Python dict access d.get(k). -/
def alist_get {α : Type} : List (String × α) → String → Option α
  | [], _ => none
  | p :: t, k => if p.1 = k then some p.2 else alist_get t k

/- Code-point lexicographic order on character lists, as Python compares
strings. Written as a Bool so concrete instances evaluate by decide. -/
def charListLeB : List Char → List Char → Bool
  | [], _ => true
  | _ :: _, [] => false
  | c :: cs, d :: ds => if c = d then charListLeB cs ds else decide (c < d)

/- Python s1 <= s2 on strings. -/
def strLeB (a b : String) : Bool := charListLeB a.data b.data

/- Python key=str.lower comparison used by sorted(..., key=lambda s: s.lower()). -/
def lowerLeB (a b : String) : Bool :=
  charListLeB (a.data.map Char.toLower) (b.data.map Char.toLower)

/- Stable insertion into a sorted list: the sorting model for Python sorted. -/
def insertSorted (le : String → String → Bool) (a : String) : List String → List String
  | [] => [a]
  | b :: t => if le a b then a :: b :: t else b :: insertSorted le a t

/- Stable sort (insertion sort), modelling Python sorted / list.sort, both stable. -/
def insSort (le : String → String → Bool) (l : List String) : List String :=
  l.foldr (insertSorted le) []

theorem mem_insertSorted (le : String → String → Bool) (a x : String) :
    ∀ l, x ∈ insertSorted le a l ↔ x = a ∨ x ∈ l := by
  intro l
  induction l with
  | nil => simp [insertSorted]
  | cons b t ih =>
    by_cases h : le a b = true
    · simp [insertSorted, h, List.mem_cons]
    · simp only [insertSorted, if_neg h, List.mem_cons, ih]
      tauto

theorem mem_insSort (le : String → String → Bool) (x : String) :
    ∀ l, x ∈ insSort le l ↔ x ∈ l := by
  intro l
  induction l with
  | nil => simp [insSort]
  | cons b t ih =>
    simp only [insSort, List.foldr_cons] at ih ⊢
    rw [mem_insertSorted, ih]
    exact (List.mem_cons).symm

theorem nodup_insertSorted (le : String → String → Bool) (a : String) :
    ∀ l, a ∉ l → l.Nodup → (insertSorted le a l).Nodup := by
  intro l
  induction l with
  | nil => intro _ _; simp [insertSorted]
  | cons b t ih =>
    intro ha hnd
    rw [List.nodup_cons] at hnd
    by_cases h : le a b = true
    · rw [insertSorted, if_pos h, List.nodup_cons, List.nodup_cons]
      exact ⟨by simpa using ha, hnd⟩
    · rw [insertSorted, if_neg h, List.nodup_cons]
      constructor
      · rw [mem_insertSorted]
        rintro (rfl | hbt)
        · exact ha (List.mem_cons_self _ _)
        · exact hnd.1 hbt
      · exact ih (fun h2 => ha (List.mem_cons_of_mem _ h2)) hnd.2

theorem nodup_insSort (le : String → String → Bool) :
    ∀ l : List String, l.Nodup → (insSort le l).Nodup := by
  intro l
  induction l with
  | nil => intro _; simp [insSort]
  | cons b t ih =>
    intro hnd
    rw [List.nodup_cons] at hnd
    simp only [insSort, List.foldr_cons]
    refine nodup_insertSorted le b _ ?_ (ih hnd.2)
    rw [show t.foldr (insertSorted le) [] = insSort le t from rfl, mem_insSort]
    exact hnd.1

theorem chain_insertSorted (le : String → String → Bool)
    (htot : ∀ x y, le x y = true ∨ le y x = true) (a : String) :
    ∀ l, l.Chain' (fun x y => le x y = true) →
      (insertSorted le a l).Chain' (fun x y => le x y = true) := by
  intro l
  induction l with
  | nil => intro _; simp [insertSorted]
  | cons b t ih =>
    intro hch
    rw [List.chain'_cons'] at hch
    by_cases h : le a b = true
    · rw [insertSorted, if_pos h]
      exact List.Chain'.cons h (List.chain'_cons'.mpr hch)
    · rw [insertSorted, if_neg h]
      have hba : le b a = true := (htot a b).resolve_left h
      rw [List.chain'_cons']
      refine ⟨?_, ih hch.2⟩
      intro y hy
      cases t with
      | nil =>
        simp only [insertSorted, List.head?_cons, Option.mem_def] at hy
        cases hy
        exact hba
      | cons c u =>
        by_cases hac : le a c = true
        · simp only [insertSorted, if_pos hac, List.head?_cons, Option.mem_def] at hy
          cases hy
          exact hba
        · simp only [insertSorted, if_neg hac, List.head?_cons, Option.mem_def] at hy
          cases hy
          exact hch.1 _ rfl

theorem chain_insSort (le : String → String → Bool)
    (htot : ∀ x y, le x y = true ∨ le y x = true) :
    ∀ l : List String, (insSort le l).Chain' (fun x y => le x y = true) := by
  intro l
  induction l with
  | nil => simp [insSort]
  | cons b t ih =>
    simp only [insSort, List.foldr_cons]
    exact chain_insertSorted le htot b _ ih

theorem charListLeB_total : ∀ a b, charListLeB a b = true ∨ charListLeB b a = true := by
  intro a
  induction a with
  | nil => intro b; left; rfl
  | cons c cs ih =>
    intro b
    cases b with
    | nil => right; rfl
    | cons d ds =>
      by_cases h : c = d
      · subst h
        rcases ih ds with h1 | h1
        · left; simp [charListLeB, h1]
        · right; simp [charListLeB, h1]
      · rcases lt_or_gt_of_ne h with hlt | hgt
        · left; simp [charListLeB, h, hlt]
        · right; simp [charListLeB, Ne.symm h, hgt, not_lt, le_of_lt]

theorem lowerLeB_total : ∀ a b, lowerLeB a b = true ∨ lowerLeB b a = true := by
  intro a b
  exact charListLeB_total _ _

theorem strLeB_total : ∀ a b, strLeB a b = true ∨ strLeB b a = true := by
  intro a b
  exact charListLeB_total _ _

/- ## Hierarchy reconciliation (GDMLEditorApp.populate_volume_tree, gui.py 1571-1640) -/

/- A Python attribute that may hold None, a bare name string, or an object
with an optional name attribute. -/
inductive PyRef where
  | pnone
  | pstr (s : String)
  | pobj (name : Option String)
deriving DecidableEq

/- A placement (pyg4ometry PhysicalVolume) as the reconciler and the delete
operation read it: an optional name attribute, the two mother attributes
probed by getattr, and the child volume reference. -/
structure PhysVol where
  pv_name : Option String
  motherVolume : PyRef
  motherLogicalVolume : PyRef
  logicalVolume : PyRef
deriving DecidableEq

/- A logical volume as read by the reconciler: optional material name
(None models a missing or null material attribute), optional solid name,
and the locally tracked child placements. -/
structure LogVol where
  material : Option String
  solid : Option String
  daughterVolumes : List PhysVol
deriving DecidableEq

/- The registry as read by the hierarchy code: the resolved world volume
name (None models a missing world pointer or a name attribute of None)
and the three name-keyed stores the code touches. -/
structure Registry where
  worldName : Option String
  logicalVolumeDict : List (String × LogVol)
  physicalVolumeDict : List (String × PhysVol)
  solidDict : List String
deriving DecidableEq

/- One row of the displayed tree: the parent item id (the parent volume
name, or the empty string at the root), the volume name, and the material
column text. -/
structure TreeItem where
  parent : String
  name : String
  material : String
deriving DecidableEq

/- Normalisation applied in the physicalVolumeDict pass (gui.py 1602-1611):
a bare string is taken as the name, an object contributes its name
attribute, None contributes nothing. -/
def refTruthyName : PyRef → Option String
  | .pnone => none
  | .pstr s => some s
  | .pobj n => n

/- Name extraction by getattr(x, "name", None) alone, as in the
daughterVolumes pass (gui.py 1619-1620): a bare string has no name
attribute and yields None. -/
def refObjName : PyRef → Option String
  | .pnone => none
  | .pstr _ => none
  | .pobj n => n

/- Python truthiness of an optional string: None and the empty string are
falsy (the `if mother and child` and `if child` guards). -/
def truthy : Option String → Option String
  | some s => if s = "" then none else some s
  | none => none

/- The mother reference of a placement: motherVolume, falling back to
motherLogicalVolume when it is None (gui.py 1598-1600). -/
def mother_ref (pv : PhysVol) : PyRef :=
  match pv.motherVolume with
  | .pnone => pv.motherLogicalVolume
  | r => r

/- The normalised non-empty mother name of a placement, if any. -/
def mother_name (pv : PhysVol) : Option String :=
  truthy (refTruthyName (mother_ref pv))

/- The (mother, child) pair contributed by one physicalVolumeDict entry
(gui.py 1597-1614), or none when either side is missing or empty. -/
def pv_edge (pv : PhysVol) : Option (String × String) :=
  match mother_name pv, truthy (refTruthyName pv.logicalVolume) with
  | some m, some c => some (m, c)
  | _, _ => none

/- Source (a): pairs derived from every entry of registry.physicalVolumeDict. -/
def pvEdges (r : Registry) : List (String × String) :=
  r.physicalVolumeDict.filterMap (fun q => pv_edge q.2)

/- The (mother, child) pair contributed by one entry of a logical volume
daughterVolumes list (gui.py 1617-1622): the mother is the owning volume
name, the child is getattr(pv.logicalVolume, "name", None). -/
def daughter_edge (mname : String) (pv : PhysVol) : Option (String × String) :=
  match truthy (refObjName pv.logicalVolume) with
  | some c => some (mname, c)
  | none => none

/- Source (b): pairs derived from every logical volume daughterVolumes list. -/
def daughterEdges (r : Registry) : List (String × String) :=
  r.logicalVolumeDict.flatMap (fun p => p.2.daughterVolumes.filterMap (daughter_edge p.1))

/- children_by_mother as an edge list; membership in a mother bucket is
set membership, i.e. the per-parent set union of the two sources. -/
def hierarchyEdges (r : Registry) : List (String × String) :=
  pvEdges r ++ daughterEdges r

/- The merged child set of a mother (defaultdict(set) bucket), as a
duplicate-free list. -/
def childNames (r : Registry) (mname : String) : List String :=
  ((hierarchyEdges r).filterMap (fun e => if e.1 == mname then some e.2 else none)).dedup

/- sorted(children_by_mother.get(lv_name, set()), key=lambda s: s.lower())
(gui.py 1637). -/
def sortedChildren (r : Registry) (mname : String) : List String :=
  insSort lowerLeB (childNames r mname)

/- The finite universe of mother names; a name outside it has an empty
child bucket, which makes the traversal below well founded. -/
def motherUniv (r : Registry) : List String :=
  (hierarchyEdges r).map Prod.fst

/- A name outside motherUniv keys no bucket of the merged child map, so
its sorted child list is empty: the out-of-universe branch of the
traversal below (emit, do not recurse) coincides with the source, whose
recursion over an empty child list does nothing. -/
theorem sortedChildren_eq_nil_of_not_mem (r : Registry) (lv : String)
    (h : lv ∉ motherUniv r) : sortedChildren r lv = [] := by
  have hgen : ∀ t : List (String × String),
      (∀ e ∈ t, (if e.1 == lv then some e.2 else none) = (none : Option String)) →
      t.filterMap (fun e => if e.1 == lv then some e.2 else none) = [] := by
    intro t
    induction t with
    | nil => intro _; rfl
    | cons e t2 ih =>
      intro hne
      rw [List.filterMap_cons, hne e (List.mem_cons_self _ _)]
      exact ih (fun q hq => hne q (List.mem_cons_of_mem _ hq))
  have hnil := hgen (hierarchyEdges r) (by
    intro e he
    have hq : e.1 ≠ lv := by
      intro hk
      exact h (hk ▸ List.mem_map_of_mem Prod.fst he)
    simp [hq])
  rw [sortedChildren, childNames, hnil]
  rfl

/- The material column text of a tree row (gui.py 1629-1633): the material
name when the volume is found and has a material, otherwise the assembly
marker. -/
def mat_name_of (r : Registry) (lv_name : String) : String :=
  match alist_get r.logicalVolumeDict lv_name with
  | some lv =>
    match lv.material with
    | some m => m
    | none => "(Assembly)"
  | none => "(Assembly)"

theorem filter_length_mono {α : Type} (t : List α) (p q : α → Bool)
    (himp : ∀ x, p x = true → q x = true) :
    (t.filter p).length ≤ (t.filter q).length := by
  induction t with
  | nil => simp
  | cons b t ih =>
    by_cases hpb : p b = true
    · simp only [List.filter_cons, hpb, himp b hpb, if_true, List.length_cons]
      omega
    · have hpb2 : p b = false := by simpa using hpb
      by_cases hqb : q b = true
      · simp only [List.filter_cons, hpb2, hqb, if_true, Bool.false_eq_true, if_false,
          List.length_cons]
        omega
      · have hqb2 : q b = false := by simpa using hqb
        simp only [List.filter_cons, hpb2, hqb2, Bool.false_eq_true, if_false]
        exact ih

theorem filter_length_strict {α : Type} (t : List α) (p q : α → Bool)
    (himp : ∀ x, p x = true → q x = true) (a : α) (ha : a ∈ t)
    (hpa : p a = false) (hqa : q a = true) :
    (t.filter p).length < (t.filter q).length := by
  induction t with
  | nil => cases ha
  | cons b l ih =>
    rcases List.mem_cons.mp ha with rfl | hal
    · simp only [List.filter_cons, hpa, hqa, if_true, Bool.false_eq_true, if_false,
        List.length_cons]
      exact Nat.lt_succ_of_le (filter_length_mono l p q himp)
    · by_cases hpb : p b = true
      · simp only [List.filter_cons, hpb, himp b hpb, if_true, List.length_cons]
        exact Nat.succ_lt_succ (ih hal)
      · have hpb2 : p b = false := by simpa using hpb
        by_cases hqb : q b = true
        · simp only [List.filter_cons, hpb2, hqb, if_true, Bool.false_eq_true, if_false,
            List.length_cons]
          exact Nat.lt_succ_of_lt (ih hal)
        · have hqb2 : q b = false := by simpa using hqb
          simp only [List.filter_cons, hpb2, hqb2, Bool.false_eq_true, if_false]
          exact ih hal

theorem visited_filter_cons_lt (univ vis : List String) (a : String)
    (ha : a ∈ univ) (hav : a ∉ vis) :
    (univ.filter (fun x => decide (x ∉ a :: vis))).length
      < (univ.filter (fun x => decide (x ∉ vis))).length := by
  refine filter_length_strict univ _ _ ?_ a ha (by simp) (by simpa using hav)
  intro x hx
  simp only [decide_eq_true_eq] at hx ⊢
  exact fun hmem => hx (List.mem_cons_of_mem _ hmem)

theorem visited_filter_cons_eq (univ vis : List String) (a : String)
    (ha : a ∉ univ) :
    (univ.filter (fun x => decide (x ∉ a :: vis))).length
      = (univ.filter (fun x => decide (x ∉ vis))).length := by
  congr 1
  apply List.filter_congr
  intro x hx
  have hxa : x ≠ a := fun h => ha (h ▸ hx)
  simp [List.mem_cons, hxa]

/- Depth-first emission add_lv_by_name (gui.py 1624-1640), with the
pending sibling continuation made explicit: the worklist carries
(parent item id, volume name) pairs, and the shared visited set threads
through the whole traversal. When the name is outside motherUniv its
child bucket is empty, so the two branches of the inner if agree with
the source; the branch split only serves the termination measure. -/
def add_lv_by_name (r : Registry) (univ : List String) :
    List (String × String) → List String → List String × List TreeItem
  | [], visited => (visited, [])
  | (parent_item, lv_name) :: rest, visited =>
    if lv_name ∈ visited then add_lv_by_name r univ rest visited
    else
      if lv_name ∈ univ then
        ((add_lv_by_name r univ
            (((sortedChildren r lv_name).map (fun c => (lv_name, c))) ++ rest)
            (lv_name :: visited)).1,
          ⟨parent_item, lv_name, mat_name_of r lv_name⟩ ::
            (add_lv_by_name r univ
              (((sortedChildren r lv_name).map (fun c => (lv_name, c))) ++ rest)
              (lv_name :: visited)).2)
      else
        ((add_lv_by_name r univ rest (lv_name :: visited)).1,
          ⟨parent_item, lv_name, mat_name_of r lv_name⟩ ::
            (add_lv_by_name r univ rest (lv_name :: visited)).2)
termination_by l visited => ((univ.filter (fun x => decide (x ∉ visited))).length, l.length)
decreasing_by
  all_goals first
  | exact Prod.Lex.right _ (Nat.lt_succ_self _)
  | exact Prod.Lex.left _ _
      (visited_filter_cons_lt univ visited lv_name (by assumption) (by assumption))
  | (rw [visited_filter_cons_eq univ visited lv_name (by assumption)]
     exact Prod.Lex.right _ (Nat.lt_succ_self _))

/- populate_volume_tree (gui.py 1571-1640): resolve the world name, bail
out when it is missing or empty, then run the traversal from the world
with an empty visited set and an empty root item id. -/
def populate_volume_tree (r : Registry) : List TreeItem :=
  match r.worldName with
  | none => []
  | some w =>
    if w = "" then []
    else (add_lv_by_name r (motherUniv r) [("", w)] []).2

/- A structurally recursive evaluator for add_lv_by_name with explicit
fuel, used only to compute the traversal on concrete registries by
decide; add_lv_fuel_sound shows any defined run agrees with
add_lv_by_name. -/
def add_lv_fuel (r : Registry) (univ : List String) :
    Nat → List (String × String) → List String → Option (List String × List TreeItem)
  | 0, _, _ => none
  | _ + 1, [], visited => some (visited, [])
  | fuel + 1, (parent_item, lv_name) :: rest, visited =>
    if lv_name ∈ visited then add_lv_fuel r univ fuel rest visited
    else
      if lv_name ∈ univ then
        match add_lv_fuel r univ fuel
            (((sortedChildren r lv_name).map (fun c => (lv_name, c))) ++ rest)
            (lv_name :: visited) with
        | some res => some (res.1, ⟨parent_item, lv_name, mat_name_of r lv_name⟩ :: res.2)
        | none => none
      else
        match add_lv_fuel r univ fuel rest (lv_name :: visited) with
        | some res => some (res.1, ⟨parent_item, lv_name, mat_name_of r lv_name⟩ :: res.2)
        | none => none

theorem add_lv_fuel_sound (r : Registry) (univ : List String) :
    ∀ (fuel : Nat) (l : List (String × String)) (visited : List String)
      (res : List String × List TreeItem),
      add_lv_fuel r univ fuel l visited = some res →
      add_lv_by_name r univ l visited = res := by
  intro fuel
  induction fuel with
  | zero => intro l visited res h; simp [add_lv_fuel] at h
  | succ n ih =>
    intro l visited res h
    match l with
    | [] =>
      simp only [add_lv_fuel, Option.some.injEq] at h
      rw [add_lv_by_name]
      exact h.symm ▸ rfl
    | (parent_item, lv_name) :: rest =>
      rw [add_lv_fuel] at h
      by_cases hvis : lv_name ∈ visited
      · rw [if_pos hvis] at h
        rw [add_lv_by_name, if_pos hvis]
        exact ih _ _ _ h
      · rw [if_neg hvis] at h
        by_cases huniv : lv_name ∈ univ
        · rw [if_pos huniv] at h
          rw [add_lv_by_name, if_neg hvis, if_pos huniv]
          cases hrec : add_lv_fuel r univ n
              (((sortedChildren r lv_name).map (fun c => (lv_name, c))) ++ rest)
              (lv_name :: visited) with
          | none => rw [hrec] at h; cases h
          | some res1 =>
            rw [hrec, Option.some.injEq] at h
            rw [ih _ _ _ hrec]
            exact h.symm ▸ rfl
        · rw [if_neg huniv] at h
          rw [add_lv_by_name, if_neg hvis, if_neg huniv]
          cases hrec : add_lv_fuel r univ n rest (lv_name :: visited) with
          | none => rw [hrec] at h; cases h
          | some res1 =>
            rw [hrec, Option.some.injEq] at h
            rw [ih _ _ _ hrec]
            exact h.symm ▸ rfl

/- The shared visited set makes every emitted name fresh: names already
visited are never emitted and no name is emitted twice. -/
theorem add_lv_by_name_fresh (r : Registry) (univ : List String) :
    ∀ (l : List (String × String)) (visited : List String),
      ((add_lv_by_name r univ l visited).2.map TreeItem.name).Nodup
      ∧ ∀ n ∈ (add_lv_by_name r univ l visited).2.map TreeItem.name, n ∉ visited := by
  intro l visited
  induction l, visited using add_lv_by_name.induct r univ with
  | case1 visited => constructor <;> simp [add_lv_by_name]
  | case2 parent_item lv_name rest visited hvis ih =>
    rw [add_lv_by_name, if_pos hvis]
    exact ih
  | case3 parent_item lv_name rest visited hvis huniv ih =>
    rw [add_lv_by_name, if_neg hvis, if_pos huniv]
    obtain ⟨ihnd, ihvis⟩ := ih
    constructor
    · simp only [List.map_cons, List.nodup_cons]
      refine ⟨fun hc => ?_, ihnd⟩
      exact (ihvis _ hc) (List.mem_cons_self _ _)
    · intro n hn
      simp only [List.map_cons, List.mem_cons] at hn
      rcases hn with rfl | hn
      · exact hvis
      · exact fun hnvis => (ihvis n hn) (List.mem_cons_of_mem _ hnvis)
  | case4 parent_item lv_name rest visited hvis huniv ih =>
    rw [add_lv_by_name, if_neg hvis, if_neg huniv]
    obtain ⟨ihnd, ihvis⟩ := ih
    constructor
    · simp only [List.map_cons, List.nodup_cons]
      refine ⟨fun hc => ?_, ihnd⟩
      exact (ihvis _ hc) (List.mem_cons_self _ _)
    · intro n hn
      simp only [List.map_cons, List.mem_cons] at hn
      rcases hn with rfl | hn
      · exact hvis
      · exact fun hnvis => (ihvis n hn) (List.mem_cons_of_mem _ hnvis)

/- The registry of the C1 example: world W places A through the placement
dict only, while the daughterVolumes list of A alone names B. -/
def exampleRegistryC1 : Registry :=
  { worldName := some "W"
  , logicalVolumeDict :=
      [ ("W", { material := some "G4_AIR", solid := some "W_solid", daughterVolumes := [] })
      , ("A", { material := some "G4_Al", solid := some "A_solid",
                daughterVolumes := [ { pv_name := some "B_pv", motherVolume := .pobj (some "A"),
                                       motherLogicalVolume := .pnone,
                                       logicalVolume := .pobj (some "B") } ] })
      , ("B", { material := some "G4_Fe", solid := some "B_solid", daughterVolumes := [] }) ]
  , physicalVolumeDict :=
      [ ("A_pv", { pv_name := some "A_pv", motherVolume := .pobj (some "W"),
                   motherLogicalVolume := .pnone, logicalVolume := .pobj (some "A") }) ]
  , solidDict := ["W_solid", "A_solid", "B_solid"] }

/-- C1: for every registry, the merged child set of each parent is the set
union of the pairs derived from registry.physicalVolumeDict (normalising
object or bare-string references) and of the children named by each
logical volume daughterVolumes list; and on the registry whose world W
places A only in the placement dict while the child list of A alone
names B, the emitted tree is W containing A containing B. -/
theorem populate_volume_tree_union_of_sources :
    (∀ (r : Registry) (m c : String),
        c ∈ childNames r m ↔ ((m, c) ∈ pvEdges r ∨ (m, c) ∈ daughterEdges r))
    ∧ populate_volume_tree exampleRegistryC1
        = [⟨"", "W", "G4_AIR"⟩, ⟨"W", "A", "G4_Al"⟩, ⟨"A", "B", "G4_Fe"⟩] := by
  constructor
  · intro r m c
    simp only [childNames, List.mem_dedup, List.mem_filterMap, hierarchyEdges,
      List.mem_append]
    constructor
    · rintro ⟨e, he, hif⟩
      have he2 : e = (m, c) := by
        by_cases h : e.1 == m
        · rw [if_pos h] at hif
          cases hif
          have h2 : e.1 = m := by simpa using h
          cases e
          simp_all
        · rw [if_neg h] at hif
          cases hif
      exact he2 ▸ he
    · intro hmem
      exact ⟨(m, c), hmem, by simp⟩
  · have h := add_lv_fuel_sound exampleRegistryC1 (motherUniv exampleRegistryC1) 10
      [("", "W")] []
      (["B", "A", "W"],
        [⟨"", "W", "G4_AIR"⟩, ⟨"W", "A", "G4_Al"⟩, ⟨"A", "B", "G4_Fe"⟩])
      (by decide)
    show (add_lv_by_name exampleRegistryC1 (motherUniv exampleRegistryC1) [("", "W")] []).2 = _
    rw [h]

/- A registry whose merged child map is cyclic: W places A and A places W. -/
def exampleRegistryCycle : Registry :=
  { worldName := some "W"
  , logicalVolumeDict :=
      [ ("W", { material := some "G4_AIR", solid := some "W_solid", daughterVolumes := [] })
      , ("A", { material := some "G4_Al", solid := some "A_solid", daughterVolumes := [] }) ]
  , physicalVolumeDict :=
      [ ("A_pv", { pv_name := some "A_pv", motherVolume := .pobj (some "W"),
                   motherLogicalVolume := .pnone, logicalVolume := .pobj (some "A") })
      , ("W_pv", { pv_name := some "W_pv", motherVolume := .pobj (some "A"),
                   motherLogicalVolume := .pnone, logicalVolume := .pobj (some "W") }) ]
  , solidDict := ["W_solid", "A_solid"] }

/-- C2: for every registry, including cyclic ones, the depth-first emission
of the reconciliation is a total function whose output names each volume
at most once (the visited set is shared across the whole traversal); on a
registry whose merged child map contains the cycle W to A to W the
traversal terminates and emits W then A, each once. -/
theorem reconcile_emits_each_name_once :
    (∀ r : Registry, ((populate_volume_tree r).map TreeItem.name).Nodup)
    ∧ populate_volume_tree exampleRegistryCycle
        = [⟨"", "W", "G4_AIR"⟩, ⟨"W", "A", "G4_Al"⟩] := by
  constructor
  · intro r
    match hw : r.worldName with
    | none => simp [populate_volume_tree, hw]
    | some w =>
      by_cases hempty : w = ""
      · simp [populate_volume_tree, hw, hempty]
      · have h2 : populate_volume_tree r
            = (add_lv_by_name r (motherUniv r) [("", w)] []).2 := by
          rw [populate_volume_tree.eq_def, hw]
          simp [hempty]
        rw [h2]
        exact (add_lv_by_name_fresh r (motherUniv r) [("", w)] []).1
  · have h := add_lv_fuel_sound exampleRegistryCycle (motherUniv exampleRegistryCycle) 10
      [("", "W")] []
      (["A", "W"], [⟨"", "W", "G4_AIR"⟩, ⟨"W", "A", "G4_Al"⟩])
      (by decide)
    show (add_lv_by_name exampleRegistryCycle (motherUniv exampleRegistryCycle)
      [("", "W")] []).2 = _
    rw [h]

/- ## Volume deletion (GDMLEditorApp.delete_volume, gui.py 2090-2122)

The comparison pv.logicalVolume.name == volume_name is embedded as
refObjName pv.logicalVolume = some v: an object reference contributes
its optional name, and a missing name compares unequal to every volume
name, as None does in Python. -/

theorem alist_get_map {α β : Type} (f : String → α → β) (l : List (String × α)) (k : String) :
    alist_get (l.map (fun p => (p.1, f p.1 p.2))) k = (alist_get l k).map (f k) := by
  induction l with
  | nil => rfl
  | cons p t ih =>
    by_cases h : p.1 = k
    · simp [alist_get, h]
    · simp [alist_get, h, ih]

theorem alist_get_filter_ne {α : Type} (l : List (String × α)) (k : String) :
    alist_get (l.filter (fun p => decide (p.1 ≠ k))) k = none := by
  induction l with
  | nil => rfl
  | cons p t ih =>
    by_cases h : p.1 = k
    · simpa [List.filter_cons, h] using ih
    · simpa [List.filter_cons, h, alist_get] using ih

/- Phase 1 of delete_volume (gui.py 2092-2103): the names of placements
found in some daughterVolumes list whose child is the deleted volume;
these keys are deleted from physicalVolumeDict. -/
def phase1_removed_names (r : Registry) (v : String) : List String :=
  r.logicalVolumeDict.flatMap (fun p =>
    p.2.daughterVolumes.filterMap (fun pv =>
      if refObjName pv.logicalVolume = some v then pv.pv_name else none))

/- delete_volume (gui.py 2090-2122), after the world-volume guard: remove
child placements of v from every daughterVolumes list and their names
from physicalVolumeDict; then, when v keys logicalVolumeDict, remove
every remaining placement whose child is v, remove the solid of v from
solidDict when present, and remove v itself. -/
def strip_child_placements (v : String) (lv : LogVol) : LogVol :=
  { material := lv.material
  , solid := lv.solid
  , daughterVolumes :=
      lv.daughterVolumes.filter (fun pv => decide (refObjName pv.logicalVolume ≠ some v)) }

def delete_volume (r : Registry) (v : String) : Registry :=
  let removed := phase1_removed_names r v
  let lvDict1 := r.logicalVolumeDict.map (fun p => (p.1, strip_child_placements v p.2))
  let pvDict1 := r.physicalVolumeDict.filter (fun q => decide (q.1 ∉ removed))
  match alist_get lvDict1 v with
  | none =>
    { worldName := r.worldName
    , logicalVolumeDict := lvDict1
    , physicalVolumeDict := pvDict1
    , solidDict := r.solidDict }
  | some lv =>
    { worldName := r.worldName
    , logicalVolumeDict := lvDict1.filter (fun p => decide (p.1 ≠ v))
    , physicalVolumeDict :=
        pvDict1.filter (fun q => decide (refObjName q.2.logicalVolume ≠ some v))
    , solidDict :=
        match lv.solid with
        | some s =>
          if s ∈ r.solidDict then r.solidDict.filter (fun x => decide (x ≠ s))
          else r.solidDict
        | none => r.solidDict }

/-- C10 (amended): after delete_volume on an existing non-world volume v,
with placement names keying only placements that agree on having child v,
the registry has no logical volume v, no placement with child v in the
placement dict or in any daughterVolumes list, and no solid of v; every
placement of the original dict whose mother is v and whose child is NOT v
survives unchanged. The claim as stated, without the child-is-not-v
qualifier, fails on self-placements. -/
theorem delete_volume_effects (r : Registry) (v : String) (lv : LogVol)
    (hv : alist_get r.logicalVolumeDict v = some lv)
    (halias : ∀ q ∈ r.physicalVolumeDict,
        q.1 ∈ phase1_removed_names r v → refObjName q.2.logicalVolume = some v) :
    alist_get (delete_volume r v).logicalVolumeDict v = none
    ∧ (∀ q ∈ (delete_volume r v).physicalVolumeDict, refObjName q.2.logicalVolume ≠ some v)
    ∧ (∀ p ∈ (delete_volume r v).logicalVolumeDict, ∀ pv ∈ p.2.daughterVolumes,
        refObjName pv.logicalVolume ≠ some v)
    ∧ (∀ s, lv.solid = some s → s ∉ (delete_volume r v).solidDict)
    ∧ (∀ q ∈ r.physicalVolumeDict, mother_name q.2 = some v →
        refObjName q.2.logicalVolume ≠ some v → q ∈ (delete_volume r v).physicalVolumeDict) := by
  have hlv1 : alist_get (r.logicalVolumeDict.map (fun p => (p.1, strip_child_placements v p.2))) v
      = some (strip_child_placements v lv) := by
    rw [alist_get_map (fun _ a => strip_child_placements v a), hv]
    rfl
  refine ⟨?_, ?_, ?_, ?_, ?_⟩
  · simp only [delete_volume, hlv1]
    exact alist_get_filter_ne _ v
  · intro q hq
    simp only [delete_volume, hlv1, List.mem_filter, decide_eq_true_eq] at hq
    exact hq.2
  · intro p hp pv hpv
    simp only [delete_volume, hlv1, List.mem_filter, List.mem_map] at hp
    obtain ⟨⟨p0, hp0, hp0eq⟩, hkey⟩ := hp
    rw [← hp0eq] at hpv
    simp only [strip_child_placements, List.mem_filter, decide_eq_true_eq] at hpv
    exact hpv.2
  · intro s hs
    simp only [delete_volume, hlv1]
    have hsolid : (strip_child_placements v lv).solid = some s := hs
    rw [hsolid]
    show s ∉ (if s ∈ r.solidDict then r.solidDict.filter (fun x => decide (x ≠ s))
      else r.solidDict)
    by_cases hmem : s ∈ r.solidDict
    · rw [if_pos hmem]
      simp [List.mem_filter]
    · rw [if_neg hmem]
      exact hmem
  · intro q hq hm hc
    simp only [delete_volume, hlv1, List.mem_filter, decide_eq_true_eq]
    refine ⟨⟨hq, ?_⟩, hc⟩
    intro hrem
    exact hc (halias q hq hrem)

/- A registry with a self-placement: V placed inside itself; used to show
the original claim fails without the child-is-not-v qualifier. -/
def exampleRegistrySelf : Registry :=
  { worldName := some "W"
  , logicalVolumeDict :=
      [ ("W", { material := some "G4_AIR", solid := some "W_solid", daughterVolumes := [] })
      , ("V", { material := some "G4_Al", solid := some "V_solid",
                daughterVolumes := [ { pv_name := some "V_pv", motherVolume := .pobj (some "V"),
                                       motherLogicalVolume := .pnone,
                                       logicalVolume := .pobj (some "V") } ] }) ]
  , physicalVolumeDict :=
      [ ("V_pv", { pv_name := some "V_pv", motherVolume := .pobj (some "V"),
                   motherLogicalVolume := .pnone, logicalVolume := .pobj (some "V") }) ]
  , solidDict := ["W_solid", "V_solid"] }

/-- C10 counterexample: the claim as stated says placements whose mother
volume is v remain in physicalVolumeDict, yet on a registry with a
placement of V inside V (mother V, child V) delete_volume removes that
placement from physicalVolumeDict, because its child is v. -/
theorem delete_volume_self_placement_removed :
    mother_name ({ pv_name := some "V_pv", motherVolume := .pobj (some "V"),
                   motherLogicalVolume := .pnone, logicalVolume := .pobj (some "V") } : PhysVol)
      = some "V"
    ∧ alist_get exampleRegistrySelf.physicalVolumeDict "V_pv" ≠ none
    ∧ alist_get (delete_volume exampleRegistrySelf "V").physicalVolumeDict "V_pv" = none := by
  refine ⟨rfl, by decide, by decide⟩

/- A small registry with V placed once inside the world, used as the
witness input for delete_volume_effects. -/
def exampleRegistryDelete : Registry :=
  { worldName := some "W"
  , logicalVolumeDict :=
      [ ("W", { material := some "G4_AIR", solid := some "W_solid",
                daughterVolumes := [ { pv_name := some "V_pv", motherVolume := .pobj (some "W"),
                                       motherLogicalVolume := .pnone,
                                       logicalVolume := .pobj (some "V") } ] })
      , ("V", { material := some "G4_Al", solid := some "V_solid", daughterVolumes := [] }) ]
  , physicalVolumeDict :=
      [ ("V_pv", { pv_name := some "V_pv", motherVolume := .pobj (some "W"),
                   motherLogicalVolume := .pnone, logicalVolume := .pobj (some "V") }) ]
  , solidDict := ["W_solid", "V_solid"] }

/-- C10 witness: delete_volume_effects applied to a concrete registry in
which V exists and is placed once inside the world. -/
theorem delete_volume_effects_witness :
    alist_get (delete_volume exampleRegistryDelete "V").logicalVolumeDict "V" = none :=
  (delete_volume_effects exampleRegistryDelete "V"
    { material := some "G4_Al", solid := some "V_solid", daughterVolumes := [] }
    (by decide) (by decide)).1


/- ## Material resolution (GDMLEditorApp, gui.py 1406-1733; dialogs 32-101, 402-499, 637-656, 862-1020) -/

/- Embeds material_name.startswith('G4_') without the stuck substring
primitives: does the second character list begin with the first. -/
def chars_lead : List Char → List Char → Bool
  | [], _ => true
  | _ :: _, [] => false
  | c :: cs, d :: ds => if c = d then chars_lead cs ds else false

def name_starts_with_G4 (name : String) : Bool := chars_lead "G4_".data name.data

/- Python str.strip: drop whitespace at both ends. -/
def stripChars (l : List Char) : List Char :=
  ((l.dropWhile Char.isWhitespace).reverse.dropWhile Char.isWhitespace).reverse

def strip_str (s : String) : String := String.mk (stripChars s.data)

/- The composition field of a user material record: a molecular formula
string for type compound, an ordered element/mass-fraction list for type
mixture (the type tag of the stored dict is carried by the variant). -/
inductive MatComposition where
  | formula (f : String)
  | elems (l : List (String × ℚ))
deriving DecidableEq

/- A user material record as stored in the JSON catalog
(UserMaterialDatabase, gui.py 62-79): density with unit, composition,
optional state, optional temperature and pressure with units. -/
structure MatData where
  density : ℚ
  density_unit : String
  comp : MatComposition
  state : Option String
  temperature : Option ℚ
  temp_unit : Option String
  pressure : Option ℚ
  pressure_unit : Option String
deriving DecidableEq

/- A live pyg4ometry element in the registry; eid is the instance
identity, placeholder marks the fallback g4.Element(sym, sym, 1.0, 1.0). -/
structure GElement where
  eid : Nat
  placeholder : Bool
deriving DecidableEq

/- A live pyg4ometry material instance: mid is the instance identity, the
remaining fields are what create_user_material_in_registry computes. -/
structure GMaterial where
  mid : Nat
  density : ℚ
  state : String
  temperature : Option ℚ
  pressure : Option ℚ
deriving DecidableEq

/- The material-related slice of the registry: the material dict, the
define dict holding elements, and a counter supplying fresh instance
identities for newly constructed objects. -/
structure MatState where
  materialDict : List (String × GMaterial)
  defineDict : List (String × GElement)
  nextId : Nat
deriving DecidableEq

inductive MErr where
  | unknownMaterial (name : String)
  | unknownElement (name : String)
  | externalFailure
deriving DecidableEq

/- _convert_density_to_g_cm3 (gui.py 1483-1490): dict lookup of the
factor with default 1.0. -/
def convert_density_to_g_cm3 (density : ℚ) (unit : String) : ℚ :=
  density * ((alist_get [("g/cm3", 1), ("mg/cm3", 1/1000), ("kg/m3", 1/1000)] unit).getD 1)

/- _convert_temperature_to_kelvin (gui.py 1492-1496). -/
def convert_temperature_to_kelvin (temp : ℚ) (unit : String) : ℚ :=
  if unit = "C" then temp + 27315/100 else temp

/- _convert_pressure_to_pascal (gui.py 1498-1507). -/
def convert_pressure_to_pascal (pressure : ℚ) (unit : String) : ℚ :=
  pressure * ((alist_get [("pascal", 1), ("bar", 100000), ("atm", 101325)] unit).getD 1)

/- _get_or_create_element (gui.py 1509-1521): registry defineDict first,
then the NIST element database (modelled as the name list nist_elements,
with creation registering a fresh element, per the external library
contract in the spec), otherwise an unknown-element failure - no
placeholder fallback on this path. -/
def get_or_create_element (nist_elements : List String) (element_name : String)
    (s : MatState) : Except MErr GElement × MatState :=
  match alist_get s.defineDict element_name with
  | some e => (.ok e, s)
  | none =>
    if element_name ∈ nist_elements then
      ((.ok ⟨s.nextId, false⟩),
        ⟨s.materialDict, s.defineDict ++ [(element_name, ⟨s.nextId, false⟩)], s.nextId + 1⟩)
    else (.error (.unknownElement element_name), s)

/- The element loop of the mixture branch (gui.py 1471-1473): resolve
each symbol through _get_or_create_element, propagating the first
failure together with the state mutated so far. -/
def add_mixture_elements (nist_elements : List String) :
    List (String × ℚ) → GMaterial → MatState → Except MErr GMaterial × MatState
  | [], m, s => (.ok m, s)
  | (sym, _) :: rest, m, s =>
    match get_or_create_element nist_elements sym s with
    | (.ok _, s1) => add_mixture_elements nist_elements rest m s1
    | (.error e, s1) => (.error e, s1)

/- create_user_material_in_registry (gui.py 1426-1481): convert units,
construct the material (the pyg4ometry constructors register the new
instance under mat_name, per the spec contract for the external
library), then for a mixture resolve and attach each element. The
record performs no validation of the stored record. -/
def create_user_material_in_registry (nist_elements : List String) (mat_name : String)
    (mat_data : MatData) (s : MatState) : Except MErr GMaterial × MatState :=
  let density := convert_density_to_g_cm3 mat_data.density mat_data.density_unit
  let state := mat_data.state.getD "solid"
  let temperature := mat_data.temperature.map
    (fun t => convert_temperature_to_kelvin t (mat_data.temp_unit.getD "K"))
  let pressure := mat_data.pressure.map
    (fun p => convert_pressure_to_pascal p (mat_data.pressure_unit.getD "pascal"))
  let m : GMaterial := ⟨s.nextId, density, state, temperature, pressure⟩
  let s1 : MatState := ⟨s.materialDict ++ [(mat_name, m)], s.defineDict, s.nextId + 1⟩
  match mat_data.comp with
  | .formula _ => (.ok m, s1)
  | .elems comps => add_mixture_elements nist_elements comps m s1

/- _ensure_material_in_registry (gui.py 1709-1733). The NIST material
call is external; it is passed in as a function returning either a
created material or a failure, together with the possibly mutated
state. -/
def ensure_material_in_registry
    (nist_material : String → MatState → Option GMaterial × MatState)
    (nist_elements : List String) (user_db : List (String × MatData))
    (material_name : String) (s : MatState) : Except MErr GMaterial × MatState :=
  match alist_get s.materialDict material_name with
  | some m => (.ok m, s)
  | none =>
    if name_starts_with_G4 material_name then
      match nist_material material_name s with
      | (some m, s1) => (.ok m, s1)
      | (none, s1) =>
        match alist_get s1.materialDict material_name with
        | some m => (.ok m, s1)
        | none => (.error .externalFailure, s1)
    else
      match alist_get user_db material_name with
      | some mat_data => create_user_material_in_registry nist_elements material_name mat_data s
      | none => (.error (.unknownMaterial material_name), s)

/- InsertVolumeDialog element lookup (gui.py 1010-1017): try the NIST
element database; on failure fall back to the placeholder
g4.Element(sym, sym, 1.0, 1.0). Never fails. -/
def dialog_get_element (nist_elements : List String) (sym : String) (s : MatState) :
    GElement × MatState :=
  if sym ∈ nist_elements then
    (⟨s.nextId, false⟩,
      ⟨s.materialDict, s.defineDict ++ [(sym, ⟨s.nextId, false⟩)], s.nextId + 1⟩)
  else
    (⟨s.nextId, true⟩,
      ⟨s.materialDict, s.defineDict ++ [(sym, ⟨s.nextId, true⟩)], s.nextId + 1⟩)

/- The element loop of the dialog mixture branch (gui.py 1009-1017). -/
def dialog_add_mixture_elements (nist_elements : List String) :
    List (String × ℚ) → MatState → MatState
  | [], s => s
  | (sym, _) :: rest, s =>
    dialog_add_mixture_elements nist_elements rest (dialog_get_element nist_elements sym s).2

/- InsertVolumeDialog.insert_volume material creation from the user
database (gui.py 989-1020): look the record up, convert density
( _convert_density, gui.py 1144-1147, same factors), construct the
material and resolve mixture elements with the placeholder fallback. -/
def dialog_create_material (nist_elements : List String) (material_name : String)
    (user_mats : List (String × MatData)) (s : MatState) : Except MErr GMaterial × MatState :=
  match alist_get user_mats material_name with
  | none => (.error (.unknownMaterial material_name), s)
  | some mat_data =>
    let density := convert_density_to_g_cm3 mat_data.density mat_data.density_unit
    let m : GMaterial := ⟨s.nextId, density, "solid", none, none⟩
    let s1 : MatState := ⟨s.materialDict ++ [(material_name, m)], s.defineDict, s.nextId + 1⟩
    match mat_data.comp with
    | .formula _ => (.ok m, s1)
    | .elems comps => (.ok m, dialog_add_mixture_elements nist_elements comps s1)

/- ## User-catalog deletion (gui.py 82-88 and 637-656) -/

/- The joint state touched by material deletion: the durable user
catalog, the registry material dict, and the material instance bound
into each logical volume (by instance id), which the deletion flow
never touches. -/
structure EditorState where
  userMats : List (String × MatData)
  materialDict : List (String × GMaterial)
  lvMaterialOf : List (String × Option Nat)
deriving DecidableEq

/- UserMaterialDatabase.remove_material (gui.py 82-88): delete the
catalog entry when present; touches nothing else. -/
def remove_material (db : List (String × MatData)) (name : String) : List (String × MatData) :=
  if (alist_get db name).isSome then db.filter (fun p => decide (p.1 ≠ name)) else db

/- MaterialManagementDialog.delete_material (gui.py 637-656), confirmed
branch: remove the catalog entry, and also delete the same-named entry
from registry.materialDict when present. -/
def delete_material (st : EditorState) (name : String) : EditorState :=
  { userMats := remove_material st.userMats name
  , materialDict :=
      if (alist_get st.materialDict name).isSome
      then st.materialDict.filter (fun p => decide (p.1 ≠ name))
      else st.materialDict
  , lvMaterialOf := st.lvMaterialOf }

/- ## Material definition dialog validation (MaterialDefinitionDialog.save_material, gui.py 402-499) -/

inductive SaveResult where
  | saved (md : MatData)
  | rejected (msg : String)
deriving DecidableEq

/- The mixture row loop (gui.py 438-458) over the non-blank rows, with
fractions already parsed: strip the element, reject an empty element or
a fraction outside (0, 1], and accumulate the fraction total. -/
def validate_rows : List (String × ℚ) → Except String (List (String × ℚ) × ℚ)
  | [] => .ok ([], 0)
  | (e, f) :: rest =>
    if strip_str e = "" then .error "All element rows must have both element and fraction"
    else if f ≤ 0 ∨ 1 < f then .error ("Invalid fraction for " ++ strip_str e)
    else
      match validate_rows rest with
      | .ok (l, total) => .ok ((strip_str e, f) :: l, total + f)
      | .error msg => .error msg

/- save_material (gui.py 402-499) on already-parsed numeric inputs:
reject an empty name or non-positive density; for a compound reject an
empty (stripped) formula; for a mixture reject bad rows, an empty
composition, or a fraction total outside 1.0 plus or minus 0.001; on
success produce the record stored into the catalog. -/
def save_material (name : String) (density : ℚ) (density_unit : String)
    (is_compound : Bool) (formula : String) (rows : List (String × ℚ))
    (state : String) : SaveResult :=
  if strip_str name = "" then .rejected "Material name is required"
  else if density ≤ 0 then .rejected "Density must be a positive number"
  else if is_compound then
    if strip_str formula = "" then .rejected "Molecular formula is required"
    else .saved { density := density, density_unit := density_unit
                , comp := .formula (strip_str formula), state := some state
                , temperature := none, temp_unit := none
                , pressure := none, pressure_unit := none }
  else
    match validate_rows rows with
    | .error msg => .rejected msg
    | .ok (comps, total) =>
      if comps = [] then .rejected "At least one element is required for mixture"
      else if 1/1000 < |total - 1| then .rejected "Mass fractions must sum to 1.0"
      else .saved { density := density, density_unit := density_unit
                  , comp := .elems comps, state := some state
                  , temperature := none, temp_unit := none
                  , pressure := none, pressure_unit := none }

/- ## Availability listings -/

/- GDMLEditorApp._get_all_available_materials (gui.py 1679-1700): the set
union of registry material names, the cached NIST list and the user
catalog names, sorted case-insensitively. Pure in the three name lists;
it constructs no material. -/
def get_all_available_materials
    (registry_materials nist_materials user_materials : List String) : List String :=
  insSort lowerLeB ((registry_materials ++ nist_materials ++ user_materials).dedup)

def insert_unique (acc : List String) (x : String) : List String :=
  if x ∈ acc then acc else acc ++ [x]

/- InsertVolumeDialog._get_all_available_materials (gui.py 862-902):
start from the registry names, append unseen NIST then user names, and
sort with plain list.sort(), i.e. case-sensitive code-point order. -/
def dialog_get_all_available_materials
    (registry_materials nist_materials user_materials : List String) : List String :=
  insSort strLeB
    (user_materials.foldl insert_unique (nist_materials.foldl insert_unique registry_materials))

/- ## Theorems: unit conversions (C9) -/

/-- C9: unit conversion during material construction multiplies density
by 1 for g/cm3 and by 1/1000 for mg/cm3 and for kg/m3, adds 273.15 to a
temperature exactly when the unit is celsius (encoded "C") and returns
other units unchanged, and multiplies pressure by 1 for pascal, by 1e5
for bar and by 101325 for atm. -/
theorem unit_conversion_factors :
    (∀ d : ℚ, convert_density_to_g_cm3 d "g/cm3" = d
      ∧ convert_density_to_g_cm3 d "mg/cm3" = d * (1/1000)
      ∧ convert_density_to_g_cm3 d "kg/m3" = d * (1/1000))
    ∧ (∀ t : ℚ, convert_temperature_to_kelvin t "C" = t + 27315/100)
    ∧ (∀ (t : ℚ) (u : String), u ≠ "C" → convert_temperature_to_kelvin t u = t)
    ∧ (∀ p : ℚ, convert_pressure_to_pascal p "pascal" = p
      ∧ convert_pressure_to_pascal p "bar" = p * 100000
      ∧ convert_pressure_to_pascal p "atm" = p * 101325) := by
  refine ⟨?_, ?_, ?_, ?_⟩
  · intro d
    refine ⟨?_, ?_, ?_⟩
    · show d * 1 = d
      exact mul_one d
    · rfl
    · rfl
  · intro t
    rfl
  · intro t u h
    simp [convert_temperature_to_kelvin, h]
  · intro p
    refine ⟨?_, ?_, ?_⟩
    · show p * 1 = p
      exact mul_one p
    · rfl
    · rfl

/-- C9 witness: the conversions evaluated at concrete inputs, with the
non-celsius hypothesis discharged at unit "K". -/
theorem unit_conversion_factors_witness :
    convert_temperature_to_kelvin 300 "K" = 300 :=
  unit_conversion_factors.2.2.1 300 "K" (by decide)

/- ## Theorems: user-catalog deletion (C5) -/

theorem filter_ne_of_get_none {α : Type} (l : List (String × α)) (k : String)
    (h : alist_get l k = none) : l.filter (fun p => decide (p.1 ≠ k)) = l := by
  induction l with
  | nil => rfl
  | cons p t ih =>
    rw [alist_get] at h
    by_cases hk : p.1 = k
    · rw [if_pos hk] at h
      cases h
    · rw [if_neg hk] at h
      simp only [List.filter_cons, decide_eq_true_eq]
      rw [if_pos hk, ih h]

/- The concrete state of the C5 counterexample: FOO is both a catalog
record and a materialized registry instance bound into volume Box. -/
def exampleEditorState : EditorState :=
  { userMats := [("FOO", { density := 1, density_unit := "g/cm3", comp := .formula "H2O"
                         , state := none, temperature := none, temp_unit := none
                         , pressure := none, pressure_unit := none })]
  , materialDict := [("FOO", ⟨7, 1, "solid", none, none⟩)]
  , lvMaterialOf := [("Box", some 7)] }

/-- C5 counterexample: deleting FOO through the management dialog removes
the same-named materialized entry from the registry material dict, so
the registry side is not left unchanged as the claim states. -/
theorem delete_material_removes_registry_entry :
    alist_get exampleEditorState.materialDict "FOO" ≠ none
    ∧ alist_get (delete_material exampleEditorState "FOO").materialDict "FOO" = none := by
  refine ⟨by decide, by decide⟩

/-- C5 (amended): the dialog deletion removes the catalog entry and also
the same-named registry materialDict entry, while the material bound
into each logical volume is untouched; UserMaterialDatabase's
remove_material alone removes only the durable catalog entry. -/
theorem delete_material_effects (st : EditorState) (name : String) :
    (delete_material st name).userMats = st.userMats.filter (fun p => decide (p.1 ≠ name))
    ∧ (delete_material st name).materialDict
        = st.materialDict.filter (fun p => decide (p.1 ≠ name))
    ∧ (delete_material st name).lvMaterialOf = st.lvMaterialOf
    ∧ remove_material st.userMats name
        = st.userMats.filter (fun p => decide (p.1 ≠ name)) := by
  have hrm : remove_material st.userMats name
      = st.userMats.filter (fun p => decide (p.1 ≠ name)) := by
    rw [remove_material]
    cases h : alist_get st.userMats name with
    | some md => rw [if_pos (by simp [h])]
    | none =>
      rw [if_neg (by simp [h])]
      exact (filter_ne_of_get_none _ _ h).symm
  refine ⟨hrm, ?_, rfl, hrm⟩
  show (if (alist_get st.materialDict name).isSome
    then st.materialDict.filter (fun p => decide (p.1 ≠ name))
    else st.materialDict) = st.materialDict.filter (fun p => decide (p.1 ≠ name))
  cases h : alist_get st.materialDict name with
  | some m => rw [if_pos (by simp [h])]
  | none =>
    rw [if_neg (by simp [h])]
    exact (filter_ne_of_get_none _ _ h).symm

/- ## Theorems: availability listing (C8) -/

theorem mem_insert_unique (acc : List String) (y x : String) :
    x ∈ insert_unique acc y ↔ x ∈ acc ∨ x = y := by
  rw [insert_unique]
  by_cases h : y ∈ acc
  · rw [if_pos h]
    constructor
    · exact fun hx => Or.inl hx
    · rintro (hx | rfl)
      · exact hx
      · exact h
  · rw [if_neg h]
    simp [List.mem_append]

theorem nodup_insert_unique (acc : List String) (y : String) (h : acc.Nodup) :
    (insert_unique acc y).Nodup := by
  rw [insert_unique]
  by_cases hy : y ∈ acc
  · rw [if_pos hy]
    exact h
  · rw [if_neg hy]
    simp [List.nodup_append, h, hy]

theorem mem_foldl_insert_unique :
    ∀ (l acc : List String) (x : String),
      x ∈ l.foldl insert_unique acc ↔ x ∈ acc ∨ x ∈ l := by
  intro l
  induction l with
  | nil => intro acc x; simp
  | cons y t ih =>
    intro acc x
    rw [List.foldl_cons, ih, mem_insert_unique]
    simp [List.mem_cons]
    tauto

theorem nodup_foldl_insert_unique :
    ∀ (l acc : List String), acc.Nodup → (l.foldl insert_unique acc).Nodup := by
  intro l
  induction l with
  | nil => intro acc h; exact h
  | cons y t ih =>
    intro acc h
    exact ih _ (nodup_insert_unique acc y h)

/-- C8 (amended): the app listing is the duplicate-free union of the
registry, NIST and user-catalog names sorted case-insensitively, and is
a pure function of the three name lists (it constructs nothing); the
dialog listing is the same duplicate-free union but sorted with plain
case-sensitive string order. -/
theorem available_materials_sorted_union
    (registry_materials nist_materials user_materials : List String)
    (hreg : registry_materials.Nodup) :
    (get_all_available_materials registry_materials nist_materials user_materials).Chain'
        (fun x y => lowerLeB x y = true)
    ∧ (get_all_available_materials registry_materials nist_materials user_materials).Nodup
    ∧ (∀ x, x ∈ get_all_available_materials registry_materials nist_materials user_materials
        ↔ (x ∈ registry_materials ∨ x ∈ nist_materials ∨ x ∈ user_materials))
    ∧ (dialog_get_all_available_materials registry_materials nist_materials user_materials).Chain'
        (fun x y => strLeB x y = true)
    ∧ (dialog_get_all_available_materials registry_materials nist_materials user_materials).Nodup
    ∧ (∀ x, x ∈ dialog_get_all_available_materials registry_materials nist_materials
          user_materials
        ↔ (x ∈ registry_materials ∨ x ∈ nist_materials ∨ x ∈ user_materials)) := by
  refine ⟨?_, ?_, ?_, ?_, ?_, ?_⟩
  · exact chain_insSort lowerLeB lowerLeB_total _
  · exact nodup_insSort lowerLeB _ (List.nodup_dedup _)
  · intro x
    rw [get_all_available_materials, mem_insSort, List.mem_dedup, List.mem_append,
      List.mem_append]
    tauto
  · exact chain_insSort strLeB strLeB_total _
  · exact nodup_insSort strLeB _
      (nodup_foldl_insert_unique _ _ (nodup_foldl_insert_unique _ _ hreg))
  · intro x
    rw [dialog_get_all_available_materials, mem_insSort, mem_foldl_insert_unique,
      mem_foldl_insert_unique]
    tauto

/-- C8 witness: the listing properties at concrete inputs with the
registry-keys-duplicate-free hypothesis discharged. -/
theorem available_materials_sorted_union_witness :
    (get_all_available_materials ["Iron"] ["G4_AIR"] ["FOO"]).Nodup :=
  (available_materials_sorted_union ["Iron"] ["G4_AIR"] ["FOO"] (by decide)).2.1

/-- C8 counterexample: on registry name Zinc and NIST name air the dialog
listing is [Zinc, air], whose adjacent pair is not ordered
case-insensitively (zinc is after air), refuting the case-insensitive
sorting claim for InsertVolumeDialog._get_all_available_materials. -/
theorem dialog_available_materials_case_sensitive :
    dialog_get_all_available_materials ["Zinc"] ["air"] [] = ["Zinc", "air"]
    ∧ lowerLeB "Zinc" "air" = false := by
  refine ⟨by decide, by decide⟩

/- ## Theorems: element lookup fallback (C6) -/

/-- C6 counterexample: resolving a user-catalog mixture record through the
main resolver path (create_user_material_in_registry via
_get_or_create_element) fails with an unknown-element error on the
unrecognized symbol Xx instead of constructing a placeholder element, so
mixture construction can fail purely because a symbol is unrecognized. -/
theorem resolver_mixture_unknown_element_fails :
    (create_user_material_in_registry [] "MyMix"
      { density := 1, density_unit := "g/cm3", comp := .elems [("Xx", 1)]
      , state := none, temperature := none, temp_unit := none
      , pressure := none, pressure_unit := none } ⟨[], [], 0⟩).1
      = .error (.unknownElement "Xx") := by
  rfl

/-- C6 (amended): in the insert-volume dialog a failed standard-element
lookup falls back to constructing a placeholder element, and the dialog
construction of a material from an existing record always succeeds; the
main resolver path _get_or_create_element instead checks the registry
defineDict and then the standard database, and fails with an
unknown-element error on an unrecognized symbol. -/
theorem element_lookup_fallback
    (nist_elements : List String) (sym : String) (s : MatState) :
    ((dialog_get_element nist_elements sym s).1.placeholder
        = !(decide (sym ∈ nist_elements)))
    ∧ (sym ∉ nist_elements → alist_get s.defineDict sym = none →
        (get_or_create_element nist_elements sym s).1 = .error (.unknownElement sym))
    ∧ (∀ (material_name : String) (user_mats : List (String × MatData)) (md : MatData),
        alist_get user_mats material_name = some md →
        ∃ m s1, dialog_create_material nist_elements material_name user_mats s
          = (.ok m, s1)) := by
  refine ⟨?_, ?_, ?_⟩
  · by_cases h : sym ∈ nist_elements <;> simp [dialog_get_element, h]
  · intro h1 h2
    simp [get_or_create_element, h2, h1]
  · intro material_name user_mats md hmd
    simp only [dialog_create_material, hmd]
    cases hcomp : md.comp with
    | formula f => exact ⟨_, _, rfl⟩
    | elems comps => exact ⟨_, _, rfl⟩

/-- C6 witness: the fallback properties evaluated at the concrete symbol
Xx absent from a concrete element database and registry. -/
theorem element_lookup_fallback_witness :
    (get_or_create_element ["H"] "Xx" ⟨[], [], 0⟩).1 = .error (.unknownElement "Xx") :=
  (element_lookup_fallback ["H"] "Xx" ⟨[], [], 0⟩).2.1 (by decide) (by decide)

/- ## Theorems: record validation (C7) -/

/-- C7 counterexample: a mixture record whose fractions sum to 1/2 (far
outside the 0.001 tolerance) resolves successfully through
_ensure_material_in_registry; resolution performs no record validation,
so it does not fail with an invalid-record error as the claim states. -/
theorem resolution_skips_record_validation :
    ((ensure_material_in_registry (fun _ s => (none, s)) ["H"]
      [("BadMix", { density := 1, density_unit := "g/cm3", comp := .elems [("H", 1/2)]
                  , state := none, temperature := none, temp_unit := none
                  , pressure := none, pressure_unit := none })]
      "BadMix" ⟨[], [], 0⟩).1.isOk = true)
    ∧ 1/1000 < |(1 : ℚ)/2 - 1| := by
  constructor
  · rfl
  · rw [show |(1 : ℚ)/2 - 1| = 1/2 from by norm_num [abs_of_nonpos]]
    norm_num

theorem validate_rows_ok (rows : List (String × ℚ))
    (h : ∀ r ∈ rows, strip_str r.1 ≠ "" ∧ 0 < r.2 ∧ r.2 ≤ 1) :
    validate_rows rows = .ok (rows.map (fun r => (strip_str r.1, r.2)),
      rows.foldr (fun r acc => acc + r.2) 0) := by
  induction rows with
  | nil => rfl
  | cons r rest ih =>
    obtain ⟨he, hf0, hf1⟩ := h r (List.mem_cons_self _ _)
    have hrest := ih (fun q hq => h q (List.mem_cons_of_mem _ hq))
    cases r with
    | mk e f =>
      rw [validate_rows, if_neg (by simpa using he),
        if_neg (by push_neg; exact ⟨hf0, by simpa using hf1⟩), hrest]
      rfl

/-- C7 (amended): the malformed-record checks live in the authoring
dialog save_material, not in resolution: with a nonempty name and
positive density, a compound save succeeds exactly when the stripped
formula is nonempty, and a mixture save over per-row-valid rows succeeds
exactly when the fraction total is within 0.001 of 1; resolution itself
performs no such check (see the counterexample theorem). -/
theorem save_material_validation (name : String) (density : ℚ) (density_unit : String)
    (formula : String) (rows : List (String × ℚ)) (state : String)
    (hname : strip_str name ≠ "") (hd : 0 < density) :
    ((∃ md, save_material name density density_unit true formula rows state = .saved md)
        ↔ strip_str formula ≠ "")
    ∧ ((∀ r ∈ rows, strip_str r.1 ≠ "" ∧ 0 < r.2 ∧ r.2 ≤ 1) → rows ≠ [] →
        ((∃ md, save_material name density density_unit false formula rows state = .saved md)
          ↔ |rows.foldr (fun r acc => acc + r.2) 0 - 1| ≤ 1/1000)) := by
  have hd2 : ¬ density ≤ 0 := not_le.mpr hd
  constructor
  · rw [save_material, if_neg hname, if_neg hd2, if_pos rfl]
    constructor
    · rintro ⟨md, hmd⟩ hf
      rw [if_pos hf] at hmd
      cases hmd
    · intro hf
      rw [if_neg hf]
      exact ⟨_, rfl⟩
  · intro hrows hne
    rw [save_material, if_neg hname, if_neg hd2, if_neg (by simp),
      validate_rows_ok rows hrows]
    have hcomps : ¬ (rows.map (fun r => (strip_str r.1, r.2)) = []) := by
      simpa using hne
    show (∃ md, (if (rows.map (fun r => (strip_str r.1, r.2))) = [] then
        SaveResult.rejected "At least one element is required for mixture"
      else if 1/1000 < |rows.foldr (fun r acc => acc + r.2) 0 - 1| then
        SaveResult.rejected "Mass fractions must sum to 1.0"
      else SaveResult.saved
        { density := density, density_unit := density_unit
        , comp := .elems (rows.map (fun r => (strip_str r.1, r.2))), state := some state
        , temperature := none, temp_unit := none, pressure := none, pressure_unit := none })
      = SaveResult.saved md) ↔ _
    rw [if_neg hcomps]
    constructor
    · rintro ⟨md, hmd⟩
      by_cases htol : 1/1000 < |rows.foldr (fun r acc => acc + r.2) 0 - 1|
      · rw [if_pos htol] at hmd
        cases hmd
      · exact not_lt.mp htol
    · intro htol
      rw [if_neg (not_lt.mpr htol)]
      exact ⟨_, rfl⟩

/-- C7 witness: the spec example mixture H 0.112 / O 0.888 saves
successfully (sum exactly 1), with the name and density hypotheses
discharged concretely. -/
theorem save_material_validation_witness :
    ∃ md, save_material "Water" 1 "g/cm3" false "" [("H", 112/1000), ("O", 888/1000)]
      "liquid" = .saved md := by
  refine ((save_material_validation "Water" 1 "g/cm3" "" [("H", 112/1000), ("O", 888/1000)]
    "liquid" (by decide) (by norm_num)).2 ?_ (by decide)).mpr ?_
  · intro r hr
    rcases List.mem_cons.mp hr with rfl | hr2
    · exact ⟨by decide, by norm_num, by norm_num⟩
    · rcases List.mem_cons.mp hr2 with rfl | hr3
      · exact ⟨by decide, by norm_num, by norm_num⟩
      · cases hr3
  · norm_num [List.foldr]

/- ## Theorems: resolution order and idempotence (C3, C4) -/

theorem alist_get_append_none {α : Type} (l1 l2 : List (String × α)) (k : String)
    (h : alist_get l1 k = none) : alist_get (l1 ++ l2) k = alist_get l2 k := by
  induction l1 with
  | nil => rfl
  | cons p t ih =>
    rw [alist_get] at h
    by_cases hk : p.1 = k
    · rw [if_pos hk] at h
      cases h
    · rw [if_neg hk] at h
      rw [List.cons_append, alist_get, if_neg hk]
      exact ih h

theorem ensure_found
    (nist_material : String → MatState → Option GMaterial × MatState)
    (nist_elements : List String) (user_db : List (String × MatData))
    (material_name : String) (s : MatState) (m0 : GMaterial)
    (hd : alist_get s.materialDict material_name = some m0) :
    ensure_material_in_registry nist_material nist_elements user_db material_name s
      = (.ok m0, s) := by
  simp only [ensure_material_in_registry, hd]

theorem ensure_g4_ok
    (nist_material : String → MatState → Option GMaterial × MatState)
    (nist_elements : List String) (user_db : List (String × MatData))
    (material_name : String) (s s2 : MatState) (m0 : GMaterial)
    (hd : alist_get s.materialDict material_name = none)
    (hg : name_starts_with_G4 material_name = true)
    (hn : nist_material material_name s = (some m0, s2)) :
    ensure_material_in_registry nist_material nist_elements user_db material_name s
      = (.ok m0, s2) := by
  simp only [ensure_material_in_registry, hd, hg, if_true, hn]

theorem ensure_g4_fallback
    (nist_material : String → MatState → Option GMaterial × MatState)
    (nist_elements : List String) (user_db : List (String × MatData))
    (material_name : String) (s s2 : MatState) (m0 : GMaterial)
    (hd : alist_get s.materialDict material_name = none)
    (hg : name_starts_with_G4 material_name = true)
    (hn : nist_material material_name s = (none, s2))
    (hd2 : alist_get s2.materialDict material_name = some m0) :
    ensure_material_in_registry nist_material nist_elements user_db material_name s
      = (.ok m0, s2) := by
  simp only [ensure_material_in_registry, hd, hg, if_true, hn, hd2]

theorem ensure_g4_fail
    (nist_material : String → MatState → Option GMaterial × MatState)
    (nist_elements : List String) (user_db : List (String × MatData))
    (material_name : String) (s s2 : MatState)
    (hd : alist_get s.materialDict material_name = none)
    (hg : name_starts_with_G4 material_name = true)
    (hn : nist_material material_name s = (none, s2))
    (hd2 : alist_get s2.materialDict material_name = none) :
    ensure_material_in_registry nist_material nist_elements user_db material_name s
      = (.error .externalFailure, s2) := by
  simp only [ensure_material_in_registry, hd, hg, if_true, hn, hd2]

theorem ensure_user
    (nist_material : String → MatState → Option GMaterial × MatState)
    (nist_elements : List String) (user_db : List (String × MatData))
    (material_name : String) (s : MatState) (md : MatData)
    (hd : alist_get s.materialDict material_name = none)
    (hg : name_starts_with_G4 material_name = false)
    (hu : alist_get user_db material_name = some md) :
    ensure_material_in_registry nist_material nist_elements user_db material_name s
      = create_user_material_in_registry nist_elements material_name md s := by
  simp only [ensure_material_in_registry, hd, hg, Bool.false_eq_true, if_false, hu]

theorem ensure_unknown
    (nist_material : String → MatState → Option GMaterial × MatState)
    (nist_elements : List String) (user_db : List (String × MatData))
    (material_name : String) (s : MatState)
    (hd : alist_get s.materialDict material_name = none)
    (hg : name_starts_with_G4 material_name = false)
    (hu : alist_get user_db material_name = none) :
    ensure_material_in_registry nist_material nist_elements user_db material_name s
      = (.error (.unknownMaterial material_name), s) := by
  simp only [ensure_material_in_registry, hd, hg, Bool.false_eq_true, if_false, hu]

theorem get_or_create_element_materialDict (nist_elements : List String) (sym : String)
    (s : MatState) :
    ((get_or_create_element nist_elements sym s).2).materialDict = s.materialDict := by
  rw [get_or_create_element]
  cases h : alist_get s.defineDict sym with
  | some e => rfl
  | none =>
    by_cases hm : sym ∈ nist_elements
    · rw [if_pos hm]
    · rw [if_neg hm]

theorem add_mixture_elements_spec (nist_elements : List String) :
    ∀ (comps : List (String × ℚ)) (m : GMaterial) (s : MatState),
      ((add_mixture_elements nist_elements comps m s).2).materialDict = s.materialDict
      ∧ ∀ m2, (add_mixture_elements nist_elements comps m s).1 = .ok m2 → m2 = m := by
  intro comps
  induction comps with
  | nil =>
    intro m s
    exact ⟨rfl, fun m2 h => by cases h; rfl⟩
  | cons c rest ih =>
    intro m s
    cases c with
    | mk sym f =>
      rw [add_mixture_elements]
      have hpres := get_or_create_element_materialDict nist_elements sym s
      cases hg : get_or_create_element nist_elements sym s with
      | mk res s1 =>
        rw [hg] at hpres
        cases res with
        | ok e =>
          obtain ⟨ih1, ih2⟩ := ih m s1
          exact ⟨ih1.trans hpres, ih2⟩
        | error e =>
          refine ⟨hpres, ?_⟩
          intro m2 h
          cases h

theorem create_user_material_registers (nist_elements : List String) (mat_name : String)
    (mat_data : MatData) (s : MatState) (m : GMaterial) (s1 : MatState)
    (hnone : alist_get s.materialDict mat_name = none)
    (h : create_user_material_in_registry nist_elements mat_name mat_data s = (.ok m, s1)) :
    alist_get s1.materialDict mat_name = some m := by
  rw [create_user_material_in_registry] at h
  set m0 : GMaterial :=
    ⟨s.nextId, convert_density_to_g_cm3 mat_data.density mat_data.density_unit,
      mat_data.state.getD "solid",
      mat_data.temperature.map
        (fun t => convert_temperature_to_kelvin t (mat_data.temp_unit.getD "K")),
      mat_data.pressure.map
        (fun p => convert_pressure_to_pascal p (mat_data.pressure_unit.getD "pascal"))⟩
    with hm0
  have hget : alist_get (s.materialDict ++ [(mat_name, m0)]) mat_name = some m0 := by
    rw [alist_get_append_none _ _ _ hnone, alist_get, if_pos rfl]
  cases hcomp : mat_data.comp with
  | formula f =>
    rw [hcomp] at h
    rw [Prod.mk.injEq] at h
    obtain ⟨h1, h2⟩ := h
    injection h1 with h1
    rw [← h2, ← h1]
    exact hget
  | elems comps =>
    rw [hcomp] at h
    obtain ⟨hspec1, hspec2⟩ := add_mixture_elements_spec nist_elements comps m0
      ⟨s.materialDict ++ [(mat_name, m0)], s.defineDict, s.nextId + 1⟩
    cases hadd : add_mixture_elements nist_elements comps m0
        ⟨s.materialDict ++ [(mat_name, m0)], s.defineDict, s.nextId + 1⟩ with
    | mk res s2 =>
      rw [Prod.mk.injEq] at h
      obtain ⟨h1, h2⟩ := h
      have hm : m = m0 := hspec2 m h1
      rw [← h2, hspec1, hm]
      exact hget

/-- C3: material resolution is idempotent: under the external-library
contract that a successful NIST materialization registers the returned
instance under the requested name, a second _ensure_material_in_registry
call right after a successful one, with the same user catalog, returns
the same material instance and the same registry state (no duplicate is
constructed), whichever of the three source categories served the first
call. -/
theorem ensure_material_idempotent
    (nist_material : String → MatState → Option GMaterial × MatState)
    (nist_elements : List String) (user_db : List (String × MatData))
    (material_name : String) (s s1 : MatState) (m : GMaterial)
    (hN : ∀ n s0 m0 s2, nist_material n s0 = (some m0, s2) →
        alist_get s2.materialDict n = some m0)
    (h : ensure_material_in_registry nist_material nist_elements user_db material_name s
        = (.ok m, s1)) :
    ensure_material_in_registry nist_material nist_elements user_db material_name s1
      = (.ok m, s1) := by
  have hreg : alist_get s1.materialDict material_name = some m := by
    cases hd : alist_get s.materialDict material_name with
    | some m0 =>
      have heq := (ensure_found nist_material nist_elements user_db material_name s m0
        hd).symm.trans h
      rw [Prod.mk.injEq] at heq
      obtain ⟨h1, h2⟩ := heq
      injection h1 with h1
      rw [← h2, hd, h1]
    | none =>
      by_cases hg : name_starts_with_G4 material_name = true
      · cases hn : nist_material material_name s with
        | mk o s2 =>
          cases o with
          | some m0 =>
            have heq := (ensure_g4_ok nist_material nist_elements user_db material_name
              s s2 m0 hd hg hn).symm.trans h
            rw [Prod.mk.injEq] at heq
            obtain ⟨h1, h2⟩ := heq
            injection h1 with h1
            rw [← h2, ← h1]
            exact hN _ _ _ _ hn
          | none =>
            cases hd2 : alist_get s2.materialDict material_name with
            | some m0 =>
              have heq := (ensure_g4_fallback nist_material nist_elements user_db
                material_name s s2 m0 hd hg hn hd2).symm.trans h
              rw [Prod.mk.injEq] at heq
              obtain ⟨h1, h2⟩ := heq
              injection h1 with h1
              rw [← h2, hd2, h1]
            | none =>
              have heq := (ensure_g4_fail nist_material nist_elements user_db
                material_name s s2 hd hg hn hd2).symm.trans h
              rw [Prod.mk.injEq] at heq
              obtain ⟨h1, _⟩ := heq
              cases h1
      · have hg2 : name_starts_with_G4 material_name = false := by simpa using hg
        cases hu : alist_get user_db material_name with
        | some md =>
          have heq := (ensure_user nist_material nist_elements user_db material_name
            s md hd hg2 hu).symm.trans h
          exact create_user_material_registers nist_elements material_name md s m s1 hd heq
        | none =>
          have heq := (ensure_unknown nist_material nist_elements user_db material_name
            s hd hg2 hu).symm.trans h
          rw [Prod.mk.injEq] at heq
          obtain ⟨h1, _⟩ := heq
          cases h1
  exact ensure_found nist_material nist_elements user_db material_name s1 m hreg

/-- C3 witness: a second resolution of a name already keying the registry
material dict returns the same instance and state; the external-call
contract hypothesis is discharged for the always-failing NIST stub. -/
theorem ensure_material_idempotent_witness :
    ensure_material_in_registry (fun _ s => (none, s)) [] [] "M"
      ⟨[("M", ⟨0, 1, "solid", none, none⟩)], [], 1⟩
      = (.ok ⟨0, 1, "solid", none, none⟩, ⟨[("M", ⟨0, 1, "solid", none, none⟩)], [], 1⟩) :=
  ensure_material_idempotent (fun _ s => (none, s)) [] [] "M"
    ⟨[("M", ⟨0, 1, "solid", none, none⟩)], [], 1⟩
    ⟨[("M", ⟨0, 1, "solid", none, none⟩)], [], 1⟩
    ⟨0, 1, "solid", none, none⟩
    (by intro n s0 m0 s2 hx; cases hx)
    (by rfl)

/-- C4: resolution tries the sources in a fixed order with first match
winning: a name keying the registry material dict is returned unchanged
with the state untouched; otherwise a G4_-prefixed name goes to the
external materializer, whose success is returned, whose failure falls
back to a same-named entry present in the post-call registry, and whose
failure with no such entry propagates as an external failure; a
non-G4_ name goes to the user catalog, and one absent there as well
fails with an unknown-material error. -/
theorem ensure_material_resolution_order
    (nist_material : String → MatState → Option GMaterial × MatState)
    (nist_elements : List String) (user_db : List (String × MatData))
    (material_name : String) (s : MatState) :
    (∀ m0, alist_get s.materialDict material_name = some m0 →
      ensure_material_in_registry nist_material nist_elements user_db material_name s
        = (.ok m0, s))
    ∧ (∀ s2 m0, alist_get s.materialDict material_name = none →
        name_starts_with_G4 material_name = true →
        nist_material material_name s = (some m0, s2) →
        ensure_material_in_registry nist_material nist_elements user_db material_name s
          = (.ok m0, s2))
    ∧ (∀ s2 m0, alist_get s.materialDict material_name = none →
        name_starts_with_G4 material_name = true →
        nist_material material_name s = (none, s2) →
        alist_get s2.materialDict material_name = some m0 →
        ensure_material_in_registry nist_material nist_elements user_db material_name s
          = (.ok m0, s2))
    ∧ (∀ s2, alist_get s.materialDict material_name = none →
        name_starts_with_G4 material_name = true →
        nist_material material_name s = (none, s2) →
        alist_get s2.materialDict material_name = none →
        ensure_material_in_registry nist_material nist_elements user_db material_name s
          = (.error .externalFailure, s2))
    ∧ (∀ md, alist_get s.materialDict material_name = none →
        name_starts_with_G4 material_name = false →
        alist_get user_db material_name = some md →
        ensure_material_in_registry nist_material nist_elements user_db material_name s
          = create_user_material_in_registry nist_elements material_name md s)
    ∧ (alist_get s.materialDict material_name = none →
        name_starts_with_G4 material_name = false →
        alist_get user_db material_name = none →
        ensure_material_in_registry nist_material nist_elements user_db material_name s
          = (.error (.unknownMaterial material_name), s)) := by
  refine ⟨?_, ?_, ?_, ?_, ?_, ?_⟩
  · intro m0 hd
    exact ensure_found nist_material nist_elements user_db material_name s m0 hd
  · intro s2 m0 hd hg hn
    exact ensure_g4_ok nist_material nist_elements user_db material_name s s2 m0 hd hg hn
  · intro s2 m0 hd hg hn hd2
    exact ensure_g4_fallback nist_material nist_elements user_db material_name s s2 m0
      hd hg hn hd2
  · intro s2 hd hg hn hd2
    exact ensure_g4_fail nist_material nist_elements user_db material_name s s2 hd hg hn hd2
  · intro md hd hg hu
    exact ensure_user nist_material nist_elements user_db material_name s md hd hg hu
  · intro hd hg hu
    exact ensure_unknown nist_material nist_elements user_db material_name s hd hg hu

/-- C4 witness: a name absent from the registry, not G4_-prefixed and
absent from the user catalog resolves to an unknown-material error, via
the resolution-order theorem at concrete inputs. -/
theorem ensure_material_resolution_order_witness :
    ensure_material_in_registry (fun _ s => (none, s)) [] [] "Steel" ⟨[], [], 0⟩
      = (.error (.unknownMaterial "Steel"), ⟨[], [], 0⟩) :=
  (ensure_material_resolution_order (fun _ s => (none, s)) [] [] "Steel"
    ⟨[], [], 0⟩).2.2.2.2.2 (by rfl) (by decide) (by rfl)
